import Mathlib

/-!
Shallow embedding of the `SizedOnDisk` derive macro (src/src/lib.rs) and
verification of its specification.

The source is a single-file procedural derive macro.  We embed the syntax-tree
fragments it consumes (`syn::DeriveInput`, `syn::Data`, `syn::Fields`,
`syn::Field`, `syn::Attribute`, `syn::Meta`, `syn::Generics`,
`syn::GenericParam`) as plain inductive types, and the three functions
`derive_disk_size`, `add_trait_bounds` and `disk_size_sum` as pure Lean
functions over them.  The emitted token stream is modelled structurally: the
body of the generated `size` function is a `SumExpr` (a literal `0` followed
by a list of spanned size-call terms), and the whole emitted `impl` block is a
`GeneratedImpl` record.  The `unimplemented!()` panic on enums/unions is
modelled by `Option`: `none` means generation aborts with no artifact.
-/

namespace SerDerive

/-- Embedding of `syn::Meta`: the content of an attribute.  A bare marker
attribute like `#[dignore]` is `Meta.path`; `#[dignore(x)]` is `Meta.list`;
`#[dignore = "x"]` is `Meta.nameValue`.  Paths are modelled as their list of
segment identifiers. -/
inductive Meta where
  | path (segments : List String)
  | list (segments : List String) (args : List String)
  | nameValue (segments : List String) (value : String)
  deriving DecidableEq, Repr

/-- Embedding of `syn::Attribute` (only the `meta` content is ever read by
the source). -/
structure Attribute where
  meta : Meta
  deriving DecidableEq, Repr

/-- `syn::Meta::require_path_only`: returns the path when the meta is a bare
path (no arguments), and an error — modelled as `none`, matching the source's
`.ok()` — otherwise. -/
def requirePathOnly : Meta → Option (List String)
  | Meta.path segments => some segments
  | Meta.list _ _ => none
  | Meta.nameValue _ _ => none

/-- `syn::Path::is_ident`: true exactly when the path is a single segment
equal to the given identifier. -/
def isIdent (segments : List String) (ident : String) : Bool :=
  segments = [ident]

/-- Embedding of `syn::Field`: optional identifier (present for named
fields), a source span (modelled as an opaque number), the attached
attributes, and the (opaque, never inspected) declared type. -/
structure Field where
  ident : Option String
  span : Nat
  attrs : List Attribute
  ty : String
  deriving DecidableEq, Repr

/-- Embedding of `syn::Fields`. -/
inductive Fields where
  | named (fields : List Field)
  | unnamed (fields : List Field)
  | unit
  deriving DecidableEq, Repr

/-- Embedding of `syn::Data`.  The payloads of the enum/union cases are never
read by the source (`Data::Enum(_) | Data::Union(_) => unimplemented!()`), so
they are omitted. -/
inductive Data where
  | struct (fields : Fields)
  | enum
  | union
  deriving DecidableEq, Repr

/-- Embedding of `syn::GenericParam`: a type parameter with its bound list,
or a lifetime/const parameter (whose payload the source never touches). -/
inductive GenericParam where
  | type (name : String) (bounds : List String)
  | lifetime (name : String)
  | const (name : String)
  deriving DecidableEq, Repr

/-- Embedding of `syn::Generics`: the parameter list and the (opaque,
never-modified) where-clause. -/
structure Generics where
  params : List GenericParam
  whereClause : Option String
  deriving DecidableEq, Repr

/-- Embedding of `syn::DeriveInput` restricted to the components the source
reads: `input.ident`, `input.generics`, `input.data`. -/
structure DeriveInput where
  ident : String
  generics : Generics
  data : Data
  deriving DecidableEq, Repr

/-- One term of the generated sum: a fully qualified
`crate::types::SizedOnDisk::size(&self.⟨accessor⟩)` call, carrying the span of
the field it was generated from (`quote_spanned! {f.span()=> ...}`), with the
field accessed either by name (`Fields::Named` branch) or by zero-based index
(`Fields::Unnamed` branch). -/
inductive SizeTerm where
  | byName (span : Nat) (name : Option String)
  | byIndex (span : Nat) (index : Nat)
  deriving DecidableEq, Repr

/-- The span a generated term carries. -/
def SizeTerm.spanOf : SizeTerm → Nat
  | SizeTerm.byName s _ => s
  | SizeTerm.byIndex s _ => s

/-- The generated function body `0 #(+ #recurse)*`: a literal zero followed
by the size-call terms.  (`quote!(0)` in the `Fields::Unit` branch is the
same token stream as the repetition with zero terms, namely the single token
`0`.) -/
inductive SumExpr where
  | zeroPlus (terms : List SizeTerm)
  deriving DecidableEq, Repr

/-- The well-known ignore annotation name (`let attribute_name = "dignore"`). -/
def attribute_name : String := "dignore"

/-- The predicate of the source's `any` closure on one attribute:
`a.meta.require_path_only().ok().filter(|p| p.is_ident(attribute_name)).is_some()`. -/
def hasIgnoreMarker (a : Attribute) : Bool :=
  (Option.filter (fun p => isIdent p attribute_name) (requirePathOnly a.meta)).isSome

/-- The source's `filter` closure on one field:
`!f.attrs.iter().any(|a| ...)` — the field is kept when no attribute is a
bare `dignore` path. -/
def keepsField (f : Field) : Bool :=
  !(f.attrs.any hasIgnoreMarker)

/-- The term generated for one named field:
`quote_spanned! {f.span()=> crate::types::SizedOnDisk::size(&self.#name)}`
with `name = &f.ident`. -/
def namedSizeTerm (f : Field) : SizeTerm :=
  SizeTerm.byName f.span f.ident

/-- `fn disk_size_sum(data: &Data) -> TokenStream` from src/src/lib.rs,
returning `none` where the source panics (`unimplemented!()`). -/
def disk_size_sum : Data → Option SumExpr
  | Data.struct (Fields.named fields) =>
      some (SumExpr.zeroPlus ((fields.filter keepsField).map namedSizeTerm))
  | Data.struct (Fields.unnamed fields) =>
      some (SumExpr.zeroPlus
        (fields.enum.map (fun p => SizeTerm.byIndex p.2.span p.1)))
  | Data.struct Fields.unit =>
      some (SumExpr.zeroPlus [])
  | Data.enum => none
  | Data.union => none

/-- The trait bound pushed by `add_trait_bounds`
(`parse_quote!(crate::types::SizedOnDisk)`). -/
def sizedOnDiskBound : String := "crate::types::SizedOnDisk"

/-- The body of the `for param in &mut generics.params` loop: only
`GenericParam::Type` parameters get the bound pushed onto their bound list. -/
def addBoundToParam : GenericParam → GenericParam
  | GenericParam.type n bs => GenericParam.type n (bs ++ [sizedOnDiskBound])
  | p => p

/-- `fn add_trait_bounds(mut generics: Generics) -> Generics` from
src/src/lib.rs. -/
def add_trait_bounds (generics : Generics) : Generics :=
  { generics with params := generics.params.map addBoundToParam }

/-- The emitted `impl` block:
`impl #impl_generics crate::types::SizedOnDisk for #name #ty_generics
#where_clause { fn size(&self) -> usize { #sum } }`. -/
structure GeneratedImpl where
  name : String
  implParams : List GenericParam
  whereClause : Option String
  body : SumExpr
  deriving DecidableEq, Repr

/-- `pub fn derive_disk_size(input) -> TokenStream` from src/src/lib.rs:
augment the generics, build the sum, emit the impl.  `none` models the
build-stopping panic reached for enum/union inputs. -/
def derive_disk_size (input : DeriveInput) : Option GeneratedImpl :=
  let name := input.ident
  let generics := add_trait_bounds input.generics
  (disk_size_sum input.data).map (fun sum =>
    { name := name
      implParams := generics.params
      whereClause := generics.whereClause
      body := sum })

/-- Evaluation of a generated body under an assignment of a size result to
each size-call term: `0 + t1 + t2 + ...`. -/
def evalSum (sz : SizeTerm → Nat) : SumExpr → Nat
  | SumExpr.zeroPlus terms => terms.foldl (fun acc t => acc + sz t) 0

/-- Is a generic parameter a type parameter? -/
def isTypeParam : GenericParam → Bool
  | GenericParam.type _ _ => true
  | _ => false

/-! ## Helper lemmas -/

lemma foldl_add_eq_sum (sz : SizeTerm → Nat) (ts : List SizeTerm) (n : Nat) :
    ts.foldl (fun acc t => acc + sz t) n = n + (ts.map sz).sum := by
  induction ts generalizing n with
  | nil => simp
  | cons h t ih => simp [ih, Nat.add_assoc]

lemma evalSum_zeroPlus (sz : SizeTerm → Nat) (ts : List SizeTerm) :
    evalSum sz (SumExpr.zeroPlus ts) = (ts.map sz).sum := by
  simp [evalSum, foldl_add_eq_sum]

lemma filter_eq_nil_of_all_false (fs : List Field)
    (h : ∀ f ∈ fs, keepsField f = false) : fs.filter keepsField = [] := by
  induction fs with
  | nil => rfl
  | cons g t ih =>
      simp only [List.filter_cons, h g (by simp)]
      exact ih (fun f hf => h f (by simp [hf]))

/-! ## Concrete example values used by counterexamples and witnesses -/

/-- A positional field carrying the bare ignore annotation `#[dignore]`. -/
def exIgnoredField : Field :=
  { ident := none, span := 7, attrs := [{ meta := Meta.path ["dignore"] }],
    ty := "u32" }

/-- A named field carrying the bare ignore annotation `#[dignore]`. -/
def exNamedIgnoredField : Field :=
  { ident := some "cache", span := 3,
    attrs := [{ meta := Meta.path ["dignore"] }], ty := "Vec<u8>" }

/-- A constant size assignment: every size call returns `n`. -/
def constSize (n : Nat) : SizeTerm → Nat := fun _ => n

/-! ## Claims -/

/-- Claim C1: for every `NamedFields` struct declaration, the generated size
function body is the sum, starting from zero, of one size call per field not
carrying the ignore annotation, in declaration order, and evaluating that
body yields the sum of the retained fields' own size results. -/
theorem C1_named_sum_structure (fs : List Field) (sz : SizeTerm → Nat) :
    disk_size_sum (Data.struct (Fields.named fs)) =
      some (SumExpr.zeroPlus ((fs.filter keepsField).map namedSizeTerm)) ∧
    evalSum sz (SumExpr.zeroPlus ((fs.filter keepsField).map namedSizeTerm)) =
      ((fs.filter keepsField).map (fun f => sz (namedSizeTerm f))).sum := by
  refine ⟨rfl, ?_⟩
  simp [evalSum_zeroPlus, List.map_map, Function.comp_def]

/-- Claim C2 counterexample: a positional (tuple-style) field carrying the
bare ignore annotation is NOT excluded — the unnamed branch of
`disk_size_sum` applies no filter, so the output differs from the
named-case-mirroring (filtered) prediction of the claim. -/
theorem C2_counterexample :
    keepsField exIgnoredField = false ∧
    disk_size_sum (Data.struct (Fields.unnamed [exIgnoredField])) =
      some (SumExpr.zeroPlus [SizeTerm.byIndex 7 0]) ∧
    disk_size_sum (Data.struct (Fields.unnamed [exIgnoredField])) ≠
      some (SumExpr.zeroPlus (([exIgnoredField].filter keepsField).enum.map
        (fun p => SizeTerm.byIndex p.2.span p.1))) := by
  refine ⟨by decide, by decide, by decide⟩

/-- Claim C2 (amended): for every `PositionalFields` declaration the
generator emits, for EVERY field regardless of annotations (the ignore
annotation is not honored here), one size call accessed by the field's
zero-based positional index, in declaration order, summed from zero. -/
theorem C2_positional_all_fields (fs : List Field) (sz : SizeTerm → Nat) :
    disk_size_sum (Data.struct (Fields.unnamed fs)) =
      some (SumExpr.zeroPlus
        (fs.enum.map (fun p => SizeTerm.byIndex p.2.span p.1))) ∧
    evalSum sz (SumExpr.zeroPlus
        (fs.enum.map (fun p => SizeTerm.byIndex p.2.span p.1))) =
      (fs.enum.map (fun p => sz (SizeTerm.byIndex p.2.span p.1))).sum := by
  refine ⟨rfl, ?_⟩
  simp [evalSum_zeroPlus, List.map_map, Function.comp_def]

/-- Claim C3: invoking the generator on an enum- or union-shaped declaration
produces no artifact at all. -/
theorem C3_variant_refused (name : String) (g : Generics) :
    derive_disk_size { ident := name, generics := g, data := Data.enum } =
      none ∧
    derive_disk_size { ident := name, generics := g, data := Data.union } =
      none :=
  ⟨rfl, rfl⟩

/-- Claim C4 counterexample: a positional declaration whose single field
carries the bare ignore annotation has zero eligible fields in the claim's
sense, yet the generated body contains a size call and evaluates to a
nonzero size (5 when that call returns 5), not zero. -/
theorem C4_counterexample :
    keepsField exIgnoredField = false ∧
    disk_size_sum (Data.struct (Fields.unnamed [exIgnoredField])) =
      some (SumExpr.zeroPlus [SizeTerm.byIndex 7 0]) ∧
    evalSum (constSize 5) (SumExpr.zeroPlus [SizeTerm.byIndex 7 0]) = 5 := by
  refine ⟨by decide, by decide, by decide⟩

/-- Claim C4 (amended): for a `NoFields` (unit) declaration, for a
`NamedFields` declaration all of whose fields carry the ignore annotation,
and for a `PositionalFields` declaration with no fields, the generated body
is the bare zero term and evaluates to zero under every size assignment.
(For positional declarations with ignored fields the original claim fails,
since the ignore annotation is not honored there.) -/
theorem C4_zero_eligible (fs : List Field) (sz : SizeTerm → Nat)
    (h : ∀ f ∈ fs, keepsField f = false) :
    disk_size_sum (Data.struct (Fields.named fs)) =
      some (SumExpr.zeroPlus []) ∧
    disk_size_sum (Data.struct Fields.unit) = some (SumExpr.zeroPlus []) ∧
    disk_size_sum (Data.struct (Fields.unnamed [])) =
      some (SumExpr.zeroPlus []) ∧
    evalSum sz (SumExpr.zeroPlus []) = 0 := by
  refine ⟨?_, rfl, rfl, rfl⟩
  simp [disk_size_sum, filter_eq_nil_of_all_false fs h]

/-- Witness for C4: concrete all-ignored named declaration. -/
theorem C4_zero_eligible_witness :
    disk_size_sum (Data.struct (Fields.named [exNamedIgnoredField])) =
      some (SumExpr.zeroPlus []) :=
  (C4_zero_eligible [exNamedIgnoredField] (constSize 5) (by decide)).1

/-! ## More helper lemmas -/

/-- Relate each element of a list to its image under a map. -/
lemma forall2_self_map {α β : Type} (r : α → β → Prop) (f : α → β)
    (l : List α) (h : ∀ a ∈ l, r a (f a)) : List.Forall₂ r l (l.map f) := by
  induction l with
  | nil => exact List.Forall₂.nil
  | cons a t ih =>
      exact List.Forall₂.cons (h a (by simp))
        (ih (fun b hb => h b (by simp [hb])))

/-- The pointwise contract of `add_trait_bounds`: each type parameter gets
exactly the size-capability bound appended, everything else is untouched. -/
lemma add_trait_bounds_pointwise (g : Generics) :
    List.Forall₂ (fun p q =>
        (∀ n bs, p = GenericParam.type n bs →
          q = GenericParam.type n (bs ++ [sizedOnDiskBound])) ∧
        (isTypeParam p = false → q = p))
      g.params (add_trait_bounds g).params := by
  apply forall2_self_map
  intro p _
  cases p with
  | type n bs =>
      refine ⟨?_, ?_⟩
      · intro n2 bs2 hp
        cases hp
        rfl
      · intro hfalse
        simp [isTypeParam] at hfalse
  | lifetime n => exact ⟨fun n2 bs2 hp => (by cases hp), fun _ => rfl⟩
  | const n => exact ⟨fun n2 bs2 hp => (by cases hp), fun _ => rfl⟩

lemma isTypeParam_addBoundToParam (p : GenericParam) :
    isTypeParam (addBoundToParam p) = isTypeParam p := by
  cases p <;> rfl

/-- Mapping a function of the element over `enumFrom` ignores the indices. -/
lemma enumFrom_map_of_snd {β : Type} (f : Field → β) (n : Nat)
    (fs : List Field) :
    (List.enumFrom n fs).map (fun p => f p.2) = fs.map f := by
  induction fs generalizing n with
  | nil => rfl
  | cons g t ih => simp [List.enumFrom, ih]

/-- An attribute triggers the ignore filter exactly when it is the bare
path `dignore`. -/
lemma hasIgnoreMarker_iff (a : Attribute) :
    hasIgnoreMarker a = true ↔ a.meta = Meta.path ["dignore"] := by
  cases a with
  | mk m =>
      cases m with
      | path segments =>
          by_cases hseg : segments = [attribute_name]
          · subst hseg
            simp [hasIgnoreMarker, requirePathOnly, Option.filter, isIdent,
              attribute_name]
          · simp [hasIgnoreMarker, requirePathOnly, Option.filter, isIdent,
              hseg, attribute_name]
      | list segments args =>
          simp [hasIgnoreMarker, requirePathOnly, Option.filter]
      | nameValue segments v =>
          simp [hasIgnoreMarker, requirePathOnly, Option.filter]

/-! ## Claims C5 - C10 -/

/-- Claim C5: `add_trait_bounds` returns a generics list of the same length,
with the same count of type parameters, in which every type parameter
additionally carries the size-capability bound and every non-type parameter
is passed through untouched, and an empty generics list is returned
unchanged. -/
theorem C5_generic_bound_augmenter (g : Generics) :
    List.Forall₂ (fun p q =>
        (∀ n bs, p = GenericParam.type n bs →
          q = GenericParam.type n (bs ++ [sizedOnDiskBound])) ∧
        (isTypeParam p = false → q = p))
      g.params (add_trait_bounds g).params ∧
    (add_trait_bounds g).params.length = g.params.length ∧
    (add_trait_bounds g).params.countP isTypeParam =
      g.params.countP isTypeParam ∧
    (g.params = [] → add_trait_bounds g = g) := by
  refine ⟨add_trait_bounds_pointwise g, ?_, ?_, ?_⟩
  · simp [add_trait_bounds]
  · simp [add_trait_bounds, List.countP_map]
    congr 1
    funext p
    exact isTypeParam_addBoundToParam p
  · intro h
    cases g with
    | mk ps wc =>
        simp only at h
        subst h
        rfl

/-- Witness for C5: the empty generics list is returned unchanged. -/
theorem C5_generic_bound_augmenter_witness :
    add_trait_bounds { params := [], whereClause := none } =
      ({ params := [], whereClause := none } : Generics) :=
  (C5_generic_bound_augmenter { params := [], whereClause := none }).2.2.2 rfl

/-- A named field with no annotations. -/
def pointX : Field := { ident := some "x", span := 1, attrs := [], ty := "u32" }

/-- A second named field with no annotations. -/
def pointY : Field := { ident := some "y", span := 2, attrs := [], ty := "u32" }

/-- An unrelated (non-ignore) annotation. -/
def exOtherAttr : Attribute := { meta := Meta.path ["serde"] }

/-- Claim C6: a field with no annotations is kept by the selector; adding a
non-ignore annotation to any field never changes whether it is kept; two
fields agreeing on the presence of the ignore annotation are treated alike
(inclusion depends on nothing else); and other annotations are not an error:
generation still succeeds on every struct declaration. -/
theorem C6_selector_ignore_only (f g2 : Field) (a : Attribute)
    (i ty : String) (s : Nat) (fs : List Field) :
    keepsField { ident := some i, span := s, attrs := [], ty := ty } = true ∧
    (hasIgnoreMarker a = false →
      keepsField { f with attrs := a :: f.attrs } = keepsField f) ∧
    (f.attrs.any hasIgnoreMarker = g2.attrs.any hasIgnoreMarker →
      keepsField f = keepsField g2) ∧
    (disk_size_sum (Data.struct (Fields.named fs))).isSome = true := by
  refine ⟨rfl, ?_, ?_, rfl⟩
  · intro h
    simp [keepsField, h]
  · intro h
    simp [keepsField, h]

/-- Witness for C6: adding a `#[serde]` annotation to a plain field does not
change its selection. -/
theorem C6_selector_ignore_only_witness :
    keepsField { pointX with attrs := exOtherAttr :: pointX.attrs } =
      keepsField pointX :=
  (C6_selector_ignore_only pointX pointX exOtherAttr "x" "u32" 1 []).2.1
    (by decide)

/-- Claim C7: every size-call term in the generated sum carries the span of
the field it was generated from: in both the named and the positional case
the emitted terms' spans are exactly the originating fields' spans, in
order. -/
theorem C7_term_spans (fs : List Field) :
    ∃ ts us,
      disk_size_sum (Data.struct (Fields.named fs)) =
        some (SumExpr.zeroPlus ts) ∧
      ts.map SizeTerm.spanOf = (fs.filter keepsField).map Field.span ∧
      disk_size_sum (Data.struct (Fields.unnamed fs)) =
        some (SumExpr.zeroPlus us) ∧
      us.map SizeTerm.spanOf = fs.map Field.span := by
  refine ⟨_, _, rfl, ?_, rfl, ?_⟩
  · simp [List.map_map, Function.comp_def, namedSizeTerm, SizeTerm.spanOf]
  · simp only [List.map_map, Function.comp_def, SizeTerm.spanOf, List.enum]
    exact enumFrom_map_of_snd Field.span 0 fs

/-- The example input `Point { x: u32, y: u32 }` from the specification. -/
def exPointInput : DeriveInput :=
  { ident := "Point", generics := { params := [], whereClause := none },
    data := Data.struct (Fields.named [pointX, pointY]) }

/-- Claim C8: the generator is deterministic — two invocations on equal
inputs produce equal artifacts. -/
theorem C8_deterministic (d1 d2 : DeriveInput) (h : d1 = d2) :
    derive_disk_size d1 = derive_disk_size d2 := by
  rw [h]

/-- Witness for C8: both invocations on the `Point` declaration agree. -/
theorem C8_deterministic_witness :
    derive_disk_size exPointInput = derive_disk_size exPointInput :=
  C8_deterministic exPointInput exPointInput rfl

/-- Claim C9: an ignore annotation carrying arguments (`#[dignore(x)]` or
`#[dignore = "x"]`) does not trigger the filter; only a bare `#[dignore]`
path does, so a field none of whose attributes is the bare ignore path is
always kept, and a named field whose only annotation is a `dignore(...)`
list still contributes a size call. -/
theorem C9_nonbare_ignore_kept :
    (∀ segs args,
      hasIgnoreMarker { meta := Meta.list segs args } = false) ∧
    (∀ segs v,
      hasIgnoreMarker { meta := Meta.nameValue segs v } = false) ∧
    hasIgnoreMarker { meta := Meta.path ["dignore"] } = true ∧
    (∀ f : Field, (∀ a ∈ f.attrs, a.meta ≠ Meta.path ["dignore"]) →
      keepsField f = true) ∧
    (∀ s ty args,
      disk_size_sum (Data.struct (Fields.named
        [{ ident := some "x", span := s,
           attrs := [{ meta := Meta.list ["dignore"] args }], ty := ty }])) =
      some (SumExpr.zeroPlus [SizeTerm.byName s (some "x")])) := by
  refine ⟨fun segs args => rfl, fun segs v => rfl, by decide, ?_,
    fun s ty args => rfl⟩
  intro f h
  simp only [keepsField, Bool.not_eq_true']
  rw [List.any_eq_false]
  intro a ha
  rw [Bool.not_eq_true, ← Bool.not_eq_true, hasIgnoreMarker_iff]
  exact h a ha

/-- A field whose only attribute is `#[dignore(x)]` (with arguments). -/
def exListAttrField : Field :=
  { ident := some "x", span := 2,
    attrs := [{ meta := Meta.list ["dignore"] ["x"] }], ty := "u32" }

/-- Witness for C9: the `#[dignore(x)]`-annotated field is kept. -/
theorem C9_nonbare_ignore_kept_witness :
    keepsField exListAttrField = true :=
  C9_nonbare_ignore_kept.2.2.2.1 exListAttrField (by decide)

/-- Claim C10: the bound augmenter only appends the size-capability bound:
the where-clause of the generics is unchanged, every pre-existing bound of
every type parameter is preserved (the new bound list is the old one plus
the capability bound), non-type parameters are identical, and the emitted
implementation carries the declaration's where-clause and name unchanged. -/
theorem C10_frame_augmenter (g : Generics) (input : DeriveInput)
    (out : GeneratedImpl) (h : derive_disk_size input = some out) :
    (add_trait_bounds g).whereClause = g.whereClause ∧
    List.Forall₂ (fun p q =>
        (∀ n bs, p = GenericParam.type n bs →
          q = GenericParam.type n (bs ++ [sizedOnDiskBound])) ∧
        (isTypeParam p = false → q = p))
      g.params (add_trait_bounds g).params ∧
    out.whereClause = input.generics.whereClause ∧
    out.name = input.ident := by
  refine ⟨rfl, add_trait_bounds_pointwise g, ?_, ?_⟩ <;>
  · unfold derive_disk_size at h
    cases hd : disk_size_sum input.data with
    | none => rw [hd] at h; simp at h
    | some s =>
        rw [hd] at h
        simp only [Option.map_some'] at h
        injection h with h2
        subst h2
        rfl

/-- The generics list `<T, 'a>` with no pre-existing bounds. -/
def exGenerics : Generics :=
  { params := [GenericParam.type "T" [], GenericParam.lifetime "a"],
    whereClause := none }

/-- The `Wrapper<T, 'a>` unit-struct input. -/
def exWrapperInput : DeriveInput :=
  { ident := "Wrapper", generics := exGenerics,
    data := Data.struct Fields.unit }

/-- The artifact generated for `exWrapperInput`. -/
def exWrapperOutput : GeneratedImpl :=
  { name := "Wrapper",
    implParams := [GenericParam.type "T" [sizedOnDiskBound],
      GenericParam.lifetime "a"],
    whereClause := none,
    body := SumExpr.zeroPlus [] }

/-- Witness for C10: the `Wrapper` artifact keeps the input's name and
where-clause. -/
theorem C10_frame_augmenter_witness :
    exWrapperOutput.whereClause = exWrapperInput.generics.whereClause ∧
    exWrapperOutput.name = exWrapperInput.ident :=
  ⟨(C10_frame_augmenter exGenerics exWrapperInput exWrapperOutput
      (by decide)).2.2.1,
   (C10_frame_augmenter exGenerics exWrapperInput exWrapperOutput
      (by decide)).2.2.2⟩

end SerDerive
